import Mathlib

/-!
Shallow embedding of `crates/brush-core-vendored/src/sys/windows/fs.rs`, the
Windows filesystem-capability and executable-resolution layer of a shell
runtime.  Environment variables are passed as explicit `Option String`
parameters (`none` models an absent variable; present values are taken after
the code's lossy UTF-8 conversion).  A path's filesystem observations are
abstracted into the two facts the code queries about a path.
-/

namespace BrushWinFs

/-- A Windows path as observed by the capability provider: whether it denotes
a regular file (`Path::is_file`) and its extension as a UTF-8 string when it
has one (`Path::extension` composed with `OsStr::to_str`; `none` covers both
a missing extension and a non-UTF-8 one). -/
structure WinPath where
  isFile : Bool
  extension : Option String
deriving DecidableEq

/-- Placeholder for `crate::error::Error`; the Windows implementation of
`get_device_and_inode` never constructs a value of it. -/
inductive Error where
  | ioError : String → Error
deriving DecidableEq

/-- Rust `u8::to_ascii_lowercase`, lifted to `Char`.  ASCII case folding only
touches the bytes of `A`..`Z`, which in UTF-8 occur exactly as stand-alone
ASCII characters, so folding per character is byte-faithful. -/
def toAsciiLower (c : Char) : Char :=
  if 'A' ≤ c && c ≤ 'Z' then Char.ofNat (c.toNat + 32) else c

/-- Rust `str::eq_ignore_ascii_case`: equality after per-byte ASCII case
folding, modelled per character. -/
def eqIgnoreAsciiCase (a b : String) : Bool :=
  a.data.map toAsciiLower == b.data.map toAsciiLower

/-- Rust `char::is_whitespace`: the Unicode White_Space property. -/
def isRustWhitespace (c : Char) : Bool :=
  (0x9 ≤ c.toNat && c.toNat ≤ 0xD) || c.toNat == 0x20 || c.toNat == 0x85 ||
  c.toNat == 0xA0 || c.toNat == 0x1680 ||
  (0x2000 ≤ c.toNat && c.toNat ≤ 0x200A) ||
  c.toNat == 0x2028 || c.toNat == 0x2029 || c.toNat == 0x202F ||
  c.toNat == 0x205F || c.toNat == 0x3000

/-- Rust `str::trim` on a character list: remove leading and trailing
whitespace. -/
def trimChars (cs : List Char) : List Char :=
  ((cs.dropWhile isRustWhitespace).reverse.dropWhile isRustWhitespace).reverse

/-- Rust `str::split(';')` on a character list: every occurrence of `;`
separates two (possibly empty) segments, and the empty string yields one
empty segment. -/
def splitSemi : List Char → List (List Char)
  | [] => [[]]
  | c :: rest =>
    if c = ';' then [] :: splitSemi rest
    else
      match splitSemi rest with
      | h :: t => (c :: h) :: t
      | [] => [[c]]

/-- The fixed fallback extension set of `executable_extensions`. -/
def fallbackExtensions : List String := [".COM", ".EXE", ".BAT", ".CMD"]

/-- The per-entry step of the `filter_map` in `executable_extensions`: trim,
drop the entry if it became empty, keep it if it already starts with `.`,
otherwise prepend `.`. -/
def normalizeExt (cs : List Char) : Option (List Char) :=
  match trimChars cs with
  | [] => none
  | '.' :: t => some ('.' :: t)
  | c :: t => some ('.' :: c :: t)

/-- `executable_extensions`, as a function of the value of the `PATHEXT`
environment variable.  The source caches the result in a process-wide
`OnceLock`; this is the body of its one-time initializer. -/
def executable_extensions (pathext : Option String) : List String :=
  match pathext with
  | none => fallbackExtensions
  | some value =>
    let exts := ((splitSemi value.data).filterMap normalizeExt).map String.mk
    if exts.isEmpty then fallbackExtensions else exts

/-- `PathExt::executable` for `std::path::Path` on Windows: a regular file
whose extension, prefixed with `.`, matches some known executable extension
up to ASCII case. -/
def executable (pathext : Option String) (p : WinPath) : Bool :=
  if !p.isFile then false
  else
    match p.extension with
    | none => false
    | some e =>
      (executable_extensions pathext).any fun known =>
        eqIgnoreAsciiCase known ("." ++ e)

/-- `PathExt::readable` on Windows. -/
def readable (_ : WinPath) : Bool := true

/-- `PathExt::writable` on Windows. -/
def writable (_ : WinPath) : Bool := true

/-- `PathExt::exists_and_is_block_device` on Windows. -/
def exists_and_is_block_device (_ : WinPath) : Bool := false

/-- `PathExt::exists_and_is_char_device` on Windows. -/
def exists_and_is_char_device (_ : WinPath) : Bool := false

/-- `PathExt::exists_and_is_fifo` on Windows. -/
def exists_and_is_fifo (_ : WinPath) : Bool := false

/-- `PathExt::exists_and_is_socket` on Windows. -/
def exists_and_is_socket (_ : WinPath) : Bool := false

/-- `PathExt::exists_and_is_setgid` on Windows. -/
def exists_and_is_setgid (_ : WinPath) : Bool := false

/-- `PathExt::exists_and_is_setuid` on Windows. -/
def exists_and_is_setuid (_ : WinPath) : Bool := false

/-- `PathExt::exists_and_is_sticky_bit` on Windows. -/
def exists_and_is_sticky_bit (_ : WinPath) : Bool := false

/-- `PathExt::get_device_and_inode` on Windows: always the sentinel pair. -/
def get_device_and_inode (_ : WinPath) : Except Error (Nat × Nat) :=
  .ok (0, 0)

/-- One character of a Windows path separator (`path::is_separator`). -/
def isPathSep (c : Char) : Bool := c = '\\' || c = '/'

/-- Does the string consist of exactly a drive specifier `X:`?  In that one
case `PathBuf::push` adds no separator before the pushed component. -/
def isBareDriveSpec (s : String) : Bool :=
  match s.data with
  | [c, ':'] => c.isAlpha
  | _ => false

/-- `PathBuf::from(root).join("System32")` on Windows: push the relative
component `System32`, inserting a `\` separator unless the base is empty,
already ends in a separator, or is a bare drive specifier. -/
def joinSystem32 (root : String) : String :=
  match root.data.reverse with
  | [] => "System32"
  | c :: _ =>
    if isPathSep c || isBareDriveSpec root then root ++ "System32"
    else root ++ "\\System32"

/-- `system32_path`, as a function of the `SystemRoot` environment
variable. -/
def system32_path (systemRoot : Option String) : Option String :=
  match systemRoot with
  | none => none
  | some root => some (joinSystem32 root)

/-- `get_default_executable_search_paths`. -/
def get_default_executable_search_paths (systemRoot : Option String) :
    List String :=
  match system32_path systemRoot with
  | none => []
  | some p => [p]

/-- `get_default_standard_utils_paths`. -/
def get_default_standard_utils_paths (systemRoot : Option String) :
    List String :=
  match system32_path systemRoot with
  | none => []
  | some p => [p]

/-- Does the string begin with the extension separator `.`? -/
def headIsDot (s : String) : Bool :=
  match s.data with
  | '.' :: _ => true
  | _ => false

theorem normalizeExt_headIsDot {cs t : List Char}
    (h : normalizeExt cs = some t) : headIsDot (String.mk t) = true := by
  unfold normalizeExt at h
  split at h
  · exact absurd h (by simp)
  · cases h
    rfl
  · cases h
    rfl

theorem mem_executable_extensions_headIsDot (s : String) :
    (executable_extensions (some s)).all headIsDot = true := by
  show (if (((splitSemi s.data).filterMap normalizeExt).map String.mk).isEmpty
      then fallbackExtensions
      else ((splitSemi s.data).filterMap normalizeExt).map String.mk).all
        headIsDot = true
  split
  · rfl
  · rw [List.all_eq_true]
    intro e he
    obtain ⟨t, ht, rfl⟩ := List.mem_map.mp he
    obtain ⟨cs, _, hnorm⟩ := List.mem_filterMap.mp ht
    exact normalizeExt_headIsDot hnorm

/-- C1: `executable` returns `true` iff the path denotes a regular file and
has an extension whose dot-prefixed form matches, ASCII-case-insensitively,
some entry of the current extension set; in particular a non-regular-file or
extensionless path is never executable. -/
theorem executable_iff (pathext : Option String) (p : WinPath) :
    executable pathext p = true ↔
      p.isFile = true ∧ ∃ e, p.extension = some e ∧
        ∃ known ∈ executable_extensions pathext,
          eqIgnoreAsciiCase known ("." ++ e) = true := by
  unfold executable
  cases hf : p.isFile <;> cases he : p.extension <;>
    simp [List.any_eq_true]

/-- C2: with the `PATHEXT` variable absent, the extension set is exactly
`.COM`, `.EXE`, `.BAT`, `.CMD`. -/
theorem executable_extensions_default :
    executable_extensions none = [".COM", ".EXE", ".BAT", ".CMD"] := rfl

/-- C3: parsing a present `PATHEXT` value splits on `;`, trims whitespace,
discards entries left empty, and prepends `.` where missing: the signal
`.PS1;exe;.bat` yields exactly `.PS1`, `.exe`, `.bat`; a signal with
whitespace and empty entries is cleaned the same way; and every entry of any
parsed set begins with `.`. -/
theorem executable_extensions_parsing :
    executable_extensions (some ".PS1;exe;.bat") = [".PS1", ".exe", ".bat"] ∧
    executable_extensions (some "  .PS1 ; ;exe;  .bat  ") =
      [".PS1", ".exe", ".bat"] ∧
    ∀ s : String, (executable_extensions (some s)).all headIsDot = true :=
  ⟨by decide, by decide, mem_executable_extensions_headIsDot⟩

/-- C4: for every state of the `PATHEXT` variable the extension set is
non-empty: when filtering leaves nothing, the fixed four-entry default is
returned. -/
theorem executable_extensions_nonempty (pathext : Option String) :
    (executable_extensions pathext).isEmpty = false := by
  cases pathext with
  | none => rfl
  | some v =>
    show (if (((splitSemi v.data).filterMap normalizeExt).map String.mk).isEmpty
        then fallbackExtensions
        else ((splitSemi v.data).filterMap normalizeExt).map String.mk).isEmpty
        = false
    split
    · rfl
    · rename_i h
      cases hb :
          (((splitSemi v.data).filterMap normalizeExt).map String.mk).isEmpty
      · rfl
      · exact absurd hb h

/-- C5: the default executable search paths are derived from the
`SystemRoot` variable: when present, the single entry obtained by joining
`System32` onto it (so `C:\Windows` yields `C:\Windows\System32`), and when
absent the empty sequence; the operation is total, never an error. -/
theorem get_default_executable_search_paths_spec :
    (∀ root : String,
        get_default_executable_search_paths (some root) =
          [joinSystem32 root]) ∧
    get_default_executable_search_paths (some "C:\\Windows") =
      ["C:\\Windows\\System32"] ∧
    get_default_executable_search_paths none = [] :=
  ⟨fun _ => rfl, by decide, rfl⟩

/-- C6: for every state of the environment, the default executable search
paths and the default standard-utility paths coincide. -/
theorem search_paths_coincide (systemRoot : Option String) :
    get_default_executable_search_paths systemRoot =
      get_default_standard_utils_paths systemRoot := rfl

/-- C7: `get_device_and_inode` always succeeds with the sentinel identity
`(0, 0)`, so any two paths yield equal identities. -/
theorem get_device_and_inode_sentinel :
    (∀ p : WinPath, get_device_and_inode p = Except.ok (0, 0)) ∧
    ∀ p₁ p₂ : WinPath, get_device_and_inode p₁ = get_device_and_inode p₂ :=
  ⟨fun _ => rfl, fun _ _ => rfl⟩

/-- C8: on this platform the special-file and permission-bit predicates are
constantly `false`, and `readable` and `writable` are constantly `true`. -/
theorem constant_capability_predicates (p : WinPath) :
    exists_and_is_block_device p = false ∧
    exists_and_is_char_device p = false ∧
    exists_and_is_fifo p = false ∧
    exists_and_is_socket p = false ∧
    exists_and_is_setgid p = false ∧
    exists_and_is_setuid p = false ∧
    exists_and_is_sticky_bit p = false ∧
    readable p = true ∧ writable p = true :=
  ⟨rfl, rfl, rfl, rfl, rfl, rfl, rfl, rfl, rfl⟩

/-- C10: both search-path providers return at most one directory, whatever
the environment. -/
theorem search_paths_length_le_one (systemRoot : Option String) :
    (get_default_executable_search_paths systemRoot).length ≤ 1 ∧
    (get_default_standard_utils_paths systemRoot).length ≤ 1 := by
  cases systemRoot with
  | none => exact ⟨Nat.zero_le 1, Nat.zero_le 1⟩
  | some root => exact ⟨Nat.le_refl 1, Nat.le_refl 1⟩

end BrushWinFs
